import Mathlib

/-!
Verification development for the reusable-block subsystem of the Gutenberg
repository: the static/reusable block conversion effect handlers
(`convertBlockToStatic`, `convertBlockToReusable`), the template
synchronization function, the parent/child selection synchronization
protocol of `ReusableBlockEdit` and `SelectionObserver`, and the
editing-session lifecycle (`startEditing` / `stopEditing` / `cancelEditing`).

Blocks are modelled as a nested inductive type; fresh client identifiers
(allocated by `createBlock` / `cloneBlock` in the blocks package) are
modelled by threading an allocation counter: each allocation returns the
current counter value and bumps it, so "newly allocated" means "at least
the counter value at entry".
-/

namespace Gutenberg

/-- A JavaScript attribute value as it occurs in the modelled code: either a
finite number or a string.  `Number.isFinite` distinguishes persisted
reusable-block ids (numbers) from temporary ones (strings). -/
inductive AttrValue where
  | num (n : Int)
  | str (s : String)
deriving DecidableEq, Repr

/-- `Number.isFinite(v)`: true exactly on (finite) numbers, false on strings
(no coercion is performed by `Number.isFinite`). -/
def AttrValue.isFiniteNumber : AttrValue → Bool
  | .num _ => true
  | .str _ => false

/-- A block (ContentNode): client id, type name, attributes, inner blocks. -/
inductive Block where
  | mk (clientId : Nat) (name : String)
      (attributes : List (String × AttrValue)) (innerBlocks : List Block)

/-- The `clientId` field of a block. -/
def Block.clientId : Block → Nat
  | .mk c _ _ _ => c

/-- The `name` (type name) field of a block. -/
def Block.name : Block → String
  | .mk _ n _ _ => n

/-- The `attributes` field of a block. -/
def Block.attributes : Block → List (String × AttrValue)
  | .mk _ _ a _ => a

/-- The `innerBlocks` field of a block. -/
def Block.innerBlocks : Block → List Block
  | .mk _ _ _ i => i

/-- Attribute lookup, as `block.attributes.ref` does in the source. -/
def getAttr (b : Block) (key : String) : Option AttrValue :=
  (b.attributes.find? (fun p => p.1 == key)).map (fun p => p.2)

mutual

/-- All client ids of a block, including every nested descendant. -/
def Block.allClientIds : Block → List Nat
  | .mk c _ _ inner => c :: blocksClientIds inner

/-- All client ids of a list of blocks, including nested descendants. -/
def blocksClientIds : List Block → List Nat
  | [] => []
  | b :: bs => Block.allClientIds b ++ blocksClientIds bs

end

/-- The identifier-free structure of a block: type name, attributes and the
shape of the children, recursively. -/
inductive BlockShape where
  | mk (name : String) (attributes : List (String × AttrValue))
      (children : List BlockShape)

mutual

/-- Erase all client ids from a block, keeping its structure. -/
def Block.shape : Block → BlockShape
  | .mk _ n a inner => .mk n a (blocksShape inner)

/-- Erase all client ids from a list of blocks. -/
def blocksShape : List Block → List BlockShape
  | [] => []
  | b :: bs => Block.shape b :: blocksShape bs

end

mutual

/-- Modelled from the spec: `cloneBlock` of the blocks package is not under
`src` (only its API documentation is).  The spec states that conversion to
static performs a "recursive deep clone — every node and nested descendant
gets a newly allocated clientId, structurally identical otherwise".  Fresh
ids come from the threaded allocation counter. -/
def cloneBlock : Block → Nat → Block × Nat
  | .mk _ n a inner, fresh =>
      (Block.mk fresh n a (cloneBlocks inner (fresh + 1)).1,
       (cloneBlocks inner (fresh + 1)).2)

/-- Clone every block of a list in order, threading the allocation counter. -/
def cloneBlocks : List Block → Nat → List Block × Nat
  | [], fresh => ([], fresh)
  | b :: bs, fresh =>
      ((cloneBlock b fresh).1 :: (cloneBlocks bs (cloneBlock b fresh).2).1,
       (cloneBlocks bs (cloneBlock b fresh).2).2)

end

/-- Modelled from the spec: `createBlock` of the blocks package is not under
`src` (only its API documentation is).  It returns a block with a freshly
allocated clientId, the given name and attributes, and the given inner
blocks verbatim (identities preserved, not cloned). -/
def createBlock (name : String) (attributes : List (String × AttrValue))
    (innerBlocks : List Block) (fresh : Nat) : Block × Nat :=
  (Block.mk fresh name attributes innerBlocks, fresh + 1)

/-- The reusable-block record built by `convertBlockToReusable`
(`src/unnamed/part_002` lines 73–77): a fragment id, the client id of the
block holding the fragment's content, and a title. -/
structure ReusableBlock where
  id : AttrValue
  clientId : Nat
  title : String
deriving DecidableEq, Repr

/-- An action dispatched by the effect handlers to the block-editor or
editor store. -/
inductive Action where
  | replaceBlocks (clientIds : List Nat) (blocks : List Block)
  | receiveBlocks (blocks : List Block)
  | receiveReusableBlocks (pairs : List (ReusableBlock × Block))
  | saveReusableBlock (id : AttrValue)

/-- Whether an action is a `replaceBlocks` dispatch (the splice step). -/
def Action.isReplaceBlocks : Action → Bool
  | .replaceBlocks _ _ => true
  | _ => false

/-- `convertBlockToStatic` (`src/unnamed/part_002` lines 36–48): look up the
reference block, resolve its `ref` attribute to a reusable-block record,
look up the block holding the fragment content; if that block is the fixed
group type `core/template`, clone each of its inner blocks, otherwise clone
the block itself; dispatch `replaceBlocks` of the reference block's client
id with the clones.  JavaScript lookup failures (reading a property of
`undefined`) are modelled as `none`.  The result is the list of dispatched
actions and the updated allocation counter. -/
def convertBlockToStatic (getBlock : Nat → Option Block)
    (getReusableBlock : AttrValue → Option ReusableBlock)
    (clientId : Nat) (fresh : Nat) : Option (List Action × Nat) := do
  let oldBlock ← getBlock clientId
  let ref ← getAttr oldBlock "ref"
  let reusableBlock ← getReusableBlock ref
  let referencedBlock ← getBlock reusableBlock.clientId
  let cloned :=
    if referencedBlock.name = "core/template" then
      cloneBlocks referencedBlock.innerBlocks fresh
    else
      ((cloneBlock referencedBlock fresh).1 :: [],
       (cloneBlock referencedBlock fresh).2)
  pure ([Action.replaceBlocks [oldBlock.clientId] cloned.1], cloned.2)

/-- `uniqueId('reusable')` of lodash (`src/unnamed/part_002` line 74): the
local prefix `reusable` followed by the decimal representation of a global
counter, yielding a temporary (non-numeric) fragment id. -/
def uniqueIdReusable (seq : Nat) : AttrValue :=
  AttrValue.str ("reusable" ++ Nat.repr seq)

/-- The full outcome of one `convertBlockToReusable` run: the dispatched
actions, the fragment content block, the reusable-block record, the new
reference block, and the updated allocation counter. -/
structure ReusableConversion where
  dispatched : List Action
  parsedBlock : Block
  reusableBlock : ReusableBlock
  referenceBlock : Block
  fresh : Nat

/-- The common tail of `convertBlockToReusable` (`src/unnamed/part_002`
lines 73–94): build the reusable-block record with a fresh temporary id,
dispatch `receiveReusableBlocks` and `saveReusableBlock`, replace the
converted blocks with a newly created `core/block` reference whose `ref`
attribute is the new fragment id, and re-add the parsed block. -/
def finishConversion (parsedBlock : Block) (pre : List Action)
    (clientIds : List Nat) (fresh seq : Nat) : ReusableConversion :=
  let reusableBlock : ReusableBlock :=
    ⟨uniqueIdReusable seq, parsedBlock.clientId, "Untitled Reusable Block"⟩
  let referenceBlock :=
    (createBlock "core/block" [("ref", reusableBlock.id)] [] fresh).1
  { dispatched := pre ++
      [Action.receiveReusableBlocks [(reusableBlock, parsedBlock)],
       Action.saveReusableBlock reusableBlock.id,
       Action.replaceBlocks clientIds [referenceBlock],
       Action.receiveBlocks [parsedBlock]],
    parsedBlock := parsedBlock,
    reusableBlock := reusableBlock,
    referenceBlock := referenceBlock,
    fresh := (createBlock "core/block" [("ref", reusableBlock.id)] [] fresh).2 }

/-- `convertBlockToReusable` (`src/unnamed/part_002` lines 56–95): with a
single client id, the parsed block is the block fetched from the store
(identity preserved); with any other number of ids, the fetched blocks are
wrapped as the children of a newly created `core/template` group block,
which is first dispatched via `receiveBlocks`.  JavaScript lookup failures
are modelled as `none`. -/
def convertBlockToReusable (getBlock : Nat → Option Block)
    (clientIds : List Nat) (fresh seq : Nat) : Option ReusableConversion :=
  match clientIds with
  | [cid] =>
      match getBlock cid with
      | none => none
      | some parsedBlock =>
          some (finishConversion parsedBlock [] clientIds fresh seq)
  | _ =>
      match clientIds.mapM getBlock with
      | none => none
      | some children =>
          some (finishConversion
            (createBlock "core/template" [] children fresh).1
            [Action.receiveBlocks
              [(createBlock "core/template" [] children fresh).1]]
            clientIds
            (createBlock "core/template" [] children fresh).2 seq)

/-- A template entry: required type name, default attributes, and an inner
template for the synthesized node's children. -/
inductive TemplateEntry where
  | mk (name : String) (attributes : List (String × AttrValue))
      (innerTemplate : List TemplateEntry)

/-- The `name` field of a template entry. -/
def TemplateEntry.name : TemplateEntry → String
  | .mk n _ _ => n

/-- The `attributes` field of a template entry. -/
def TemplateEntry.attributes : TemplateEntry → List (String × AttrValue)
  | .mk _ a _ => a

/-- The `innerTemplate` field of a template entry. -/
def TemplateEntry.innerTemplate : TemplateEntry → List TemplateEntry
  | .mk _ _ t => t

mutual

/-- Modelled from the spec: `synchronizeBlocksWithTemplate` of the blocks
package is not under `src` (only its API documentation is).  Walk template
and block list position by position; keep the block when its type name
matches the template entry's, otherwise synthesize a brand-new block from
the entry; blocks beyond the template's length are dropped and the result's
length equals the template's. -/
def synchronizeBlocksWithTemplate :
    List Block → List TemplateEntry → Nat → List Block × Nat
  | _, [], fresh => ([], fresh)
  | [], t :: ts, fresh =>
      ((synthesizeFromTemplate t fresh).1 ::
         (synchronizeBlocksWithTemplate [] ts
           (synthesizeFromTemplate t fresh).2).1,
       (synchronizeBlocksWithTemplate [] ts
         (synthesizeFromTemplate t fresh).2).2)
  | b :: bs, t :: ts, fresh =>
      if b.name = t.name then
        (b :: (synchronizeBlocksWithTemplate bs ts fresh).1,
         (synchronizeBlocksWithTemplate bs ts fresh).2)
      else
        ((synthesizeFromTemplate t fresh).1 ::
           (synchronizeBlocksWithTemplate bs ts
             (synthesizeFromTemplate t fresh).2).1,
         (synchronizeBlocksWithTemplate bs ts
           (synthesizeFromTemplate t fresh).2).2)

/-- Modelled from the spec: synthesize a brand-new block of the entry's type
name with the entry's default attributes, its children built from the
entry's inner template. -/
def synthesizeFromTemplate : TemplateEntry → Nat → Block × Nat
  | .mk n a inner, fresh =>
      (Block.mk fresh n a
         (synchronizeBlocksWithTemplate [] inner (fresh + 1)).1,
       (synchronizeBlocksWithTemplate [] inner (fresh + 1)).2)

end

/-- The combined selection state of the two editing contexts: the parent
registry's block selection, the child (embedded) registry's block
selection, and the transient `isSelectingInnerBlock` instance field of
`ReusableBlockEdit` (present / absent). -/
structure ArbiterState where
  parentSel : Option Nat
  childSel : Option Nat
  innerGuard : Bool
deriving DecidableEq, Repr

/-- `ReusableBlockEdit.onSelectedBlockChange` (`src/unnamed/part_000` lines
72–78), run when the parent registry's block selection has changed: when
`isSelectingInnerBlock` is present, delete it and leave the child selection
untouched; otherwise dispatch `clearSelectedBlock` to the child registry. -/
def onSelectedBlockChange (s : ArbiterState) : ArbiterState :=
  if s.innerGuard then { s with innerGuard := false }
  else { s with childSel := none }

/-- `ReusableBlockEdit.onInnerBlockSelected` (`src/unnamed/part_000` lines
85–92): set `isSelectingInnerBlock`, then dispatch `clearSelectedBlock` to
the parent registry; when that actually changes the parent selection,
`componentDidUpdate` fires `onSelectedBlockChange` synchronously. -/
def onInnerBlockSelected (s : ArbiterState) : ArbiterState :=
  if ({ s with innerGuard := true } : ArbiterState).parentSel.isSome then
    onSelectedBlockChange { s with innerGuard := true, parentSel := none }
  else
    { s with innerGuard := true }

/-- An external selection event fired at one of the two contexts: set the
parent or the child selection to the given value. -/
inductive SelEvent where
  | setParent (sel : Option Nat)
  | setChild (sel : Option Nat)
deriving DecidableEq, Repr

/-- One settled reaction to an external selection event.
Parent event: `ReusableBlockEdit.componentDidUpdate` (`src/unnamed/part_000`
lines 54–63) calls `onSelectedBlockChange` exactly when the selection
actually changed.  Child event: `SelectionObserver.componentDidUpdate`
(`selection-observer/index.js` lines 16–21) calls `onBlockSelected`
(wired to `onInnerBlockSelected`) exactly when `hasSelectedBlock` holds now
and did not at the previous update. -/
def step (s : ArbiterState) : SelEvent → ArbiterState
  | .setParent sel =>
      if sel = s.parentSel then s
      else onSelectedBlockChange { s with parentSel := sel }
  | .setChild sel =>
      if sel = s.childSel then s
      else if sel.isSome && s.childSel.isNone then
        onInnerBlockSelected { s with childSel := sel }
      else
        { s with childSel := sel }

/-- Run a sequence of selection events, settling after each one. -/
def runEvents (s : ArbiterState) (es : List SelEvent) : ArbiterState :=
  es.foldl step s

/-- Selection exclusivity: at most one of the two contexts has a non-empty
block selection. -/
def exclusive (s : ArbiterState) : Prop :=
  s.parentSel = none ∨ s.childSel = none

/-- The component state of `ReusableBlockEdit` (`src/unnamed/part_000` lines
47–51): the remount key and the editing flag. -/
structure SessionState where
  cancelIncrementKey : Nat
  isEditing : Bool
deriving DecidableEq, Repr

/-- `toggleIsEditing` (`src/unnamed/part_000` lines 99–101). -/
def toggleIsEditing (isEditing : Bool) (s : SessionState) : SessionState :=
  { s with isEditing := isEditing }

/-- `startEditing` (`src/unnamed/part_000` line 36). -/
def startEditing (s : SessionState) : SessionState :=
  toggleIsEditing true s

/-- `stopEditing` (`src/unnamed/part_000` line 37). -/
def stopEditing (s : SessionState) : SessionState :=
  toggleIsEditing false s

/-- `cancelEditing` (`src/unnamed/part_000` lines 107–115): stop editing,
then increment `cancelIncrementKey` to force a remount. -/
def cancelEditing (s : SessionState) : SessionState :=
  let s1 := stopEditing s
  { s1 with cancelIncrementKey := s1.cancelIncrementKey + 1 }

/-- The private state container behind the embedded `EditorProvider`: the
key it was mounted with and its private tree. -/
structure MountedEditor where
  mountedKey : Nat
  privateTree : List Block

/-- Modelled from the spec: the remount semantics of the rendering framework
(not under `src`) — `EditorProvider` is keyed by `cancelIncrementKey`
(`src/unnamed/part_000` line 147), and when the key changes the private
state container is discarded and rebuilt seeded from the fragment's
last-committed content. -/
def settleEditor (fragmentContent : List Block) (key : Nat)
    (m : MountedEditor) : MountedEditor :=
  if key ≠ m.mountedKey then
    { mountedKey := key, privateTree := fragmentContent }
  else m

/-- The reusable-block entity record fetched via `getEntityRecord`
(`src/unnamed/part_000` line 187): title and content. -/
structure ReusableEntity where
  title : String
  content : List Block

/-- `isTemporaryReusableBlock` (`src/unnamed/part_000` line 183):
`!Number.isFinite(ref)`. -/
def isTemporaryReusableBlock (ref : AttrValue) : Bool :=
  !ref.isFiniteNumber

/-- The props computed by `withSelect` that the claims are about
(`src/unnamed/part_000` lines 172–206). -/
structure SelectedProps where
  reusableBlock : Option ReusableEntity
  isFetching : Bool
  canUpdateBlock : Bool

/-- The `withSelect` mapping (`src/unnamed/part_000` lines 172–206): a
temporary reference never fetches the entity record; `canUpdateBlock`
requires the record to exist, the reference to be non-temporary, and the
`canUser('update', 'blocks', ref)` permission. -/
def withSelectProps (ref : AttrValue)
    (getEntityRecord : Int → Option ReusableEntity)
    (isResolving : Bool) (canUser : Bool) : SelectedProps :=
  let reusableBlock : Option ReusableEntity :=
    if isTemporaryReusableBlock ref then none
    else
      match ref with
      | .num n => getEntityRecord n
      | .str _ => none
  { reusableBlock := reusableBlock,
    isFetching := isResolving,
    canUpdateBlock :=
      reusableBlock.isSome && !isTemporaryReusableBlock ref && canUser }

/-- What `ReusableBlockEdit.render` (`src/unnamed/part_000` lines 117–168)
produces, abstracted to the branches and flags the claims are about. -/
inductive RenderOutput where
  | placeholderSpinner
  | placeholderNotFound
  | editor (cancelIncrementKey : Nat) (templateLock : Bool)
      (showPanel : Bool) (isEditDisabled : Bool)
      (showIndicator : Bool) (listDisabled : Bool)
deriving DecidableEq, Repr

/-- `ReusableBlockEdit.render` (`src/unnamed/part_000` lines 117–168): a
missing record renders a placeholder (spinner while fetching, otherwise the
deleted/unavailable message); otherwise the embedded editor is rendered
keyed by `cancelIncrementKey`, template-locked and disabled while not
editing, with the edit panel shown when selected or editing and its edit
action disabled exactly when `canUpdateBlock` is false. -/
def render (isSelected : Bool) (reusableBlock : Option ReusableEntity)
    (isFetching canUpdateBlock : Bool) (st : SessionState) : RenderOutput :=
  match reusableBlock with
  | none =>
      if isFetching then .placeholderSpinner else .placeholderNotFound
  | some _ =>
      .editor st.cancelIncrementKey (!st.isEditing)
        (isSelected || st.isEditing) (!canUpdateBlock)
        (!isSelected && !st.isEditing) (!st.isEditing)

/-- The `isEditDisabled` prop passed to the edit panel, when one is
rendered. -/
def RenderOutput.editDisabled : RenderOutput → Option Bool
  | .editor _ _ _ d _ _ => some d
  | _ => none

/-- Round trip: convert a single block to reusable, then convert the
resulting reference block back to static, resolving exactly the fragment
the first conversion created (the parsed block under its client id, the
reference block under its own, and the reusable record under its fragment
id). -/
def roundTripStatic (node : Block) (fresh seq : Nat) :
    Option (List Action × Nat) :=
  match convertBlockToReusable
      (fun c => if c = node.clientId then some node else none)
      [node.clientId] fresh seq with
  | none => none
  | some conv =>
      convertBlockToStatic
        (fun c =>
          if c = conv.referenceBlock.clientId then some conv.referenceBlock
          else if c = conv.parsedBlock.clientId then some conv.parsedBlock
          else none)
        (fun r =>
          if r = conv.reusableBlock.id then some conv.reusableBlock
          else none)
        conv.referenceBlock.clientId conv.fresh

mutual

/-- Cloning a block allocates exactly the ids from the counter at entry up
to the counter at exit, and preserves the block's shape. -/
theorem cloneBlock_spec (b : Block) (f : Nat) :
    f + 1 ≤ (cloneBlock b f).2 ∧
    (cloneBlock b f).1.allClientIds =
      List.range' f ((cloneBlock b f).2 - f) ∧
    (cloneBlock b f).1.shape = b.shape := by
  cases b with
  | mk c n a inner =>
    have ih := cloneBlocks_spec inner (f + 1)
    refine ⟨?_, ?_, ?_⟩
    · simpa [cloneBlock] using ih.1
    · simp only [cloneBlock, Block.allClientIds]
      rw [ih.2.1]
      have hle : f + 1 ≤ (cloneBlocks inner (f + 1)).2 := ih.1
      have hsub : (cloneBlocks inner (f + 1)).2 - f =
          ((cloneBlocks inner (f + 1)).2 - (f + 1)) + 1 := by omega
      rw [hsub, List.range'_succ]
    · simp only [cloneBlock, Block.shape]
      rw [ih.2.2]

/-- Cloning a list of blocks allocates exactly the ids from the counter at
entry up to the counter at exit, and preserves the blocks' shapes. -/
theorem cloneBlocks_spec (bs : List Block) (f : Nat) :
    f ≤ (cloneBlocks bs f).2 ∧
    blocksClientIds (cloneBlocks bs f).1 =
      List.range' f ((cloneBlocks bs f).2 - f) ∧
    blocksShape (cloneBlocks bs f).1 = blocksShape bs := by
  cases bs with
  | nil => simp [cloneBlocks, blocksClientIds, blocksShape]
  | cons b bs =>
    have ih1 := cloneBlock_spec b f
    have ih2 := cloneBlocks_spec bs (cloneBlock b f).2
    refine ⟨by simp only [cloneBlocks]; omega, ?_, ?_⟩
    · simp only [cloneBlocks, blocksClientIds]
      rw [ih1.2.1, ih2.2.1]
      have happ := List.range'_append f ((cloneBlock b f).2 - f)
        ((cloneBlocks bs (cloneBlock b f).2).2 - (cloneBlock b f).2) 1
      have h1 : f + 1 * ((cloneBlock b f).2 - f) = (cloneBlock b f).2 := by
        omega
      rw [h1] at happ
      rw [happ]
      congr 1
      omega
    · simp only [cloneBlocks, blocksShape]
      rw [ih1.2.2, ih2.2.2]

end

/-- The client ids of a cloned block list are duplicate-free. -/
theorem cloneBlocks_nodup (bs : List Block) (f : Nat) :
    (blocksClientIds (cloneBlocks bs f).1).Nodup := by
  rw [(cloneBlocks_spec bs f).2.1]
  exact List.nodup_range' _ _

/-- Every client id of a cloned block list is at least the allocation
counter at entry. -/
theorem cloneBlocks_fresh (bs : List Block) (f : Nat) :
    ∀ i ∈ blocksClientIds (cloneBlocks bs f).1, f ≤ i := by
  intro i hi
  rw [(cloneBlocks_spec bs f).2.1] at hi
  exact (List.mem_range'_1.1 hi).1

/-- The client ids of a cloned block are duplicate-free. -/
theorem cloneBlock_nodup (b : Block) (f : Nat) :
    ((cloneBlock b f).1.allClientIds).Nodup := by
  rw [(cloneBlock_spec b f).2.1]
  exact List.nodup_range' _ _

/-- Every client id of a cloned block is at least the allocation counter at
entry. -/
theorem cloneBlock_fresh (b : Block) (f : Nat) :
    ∀ i ∈ (cloneBlock b f).1.allClientIds, f ≤ i := by
  intro i hi
  rw [(cloneBlock_spec b f).2.1] at hi
  exact (List.mem_range'_1.1 hi).1

/-- Erasing ids preserves the length of a block list. -/
theorem blocksShape_length (bs : List Block) :
    (blocksShape bs).length = bs.length := by
  induction bs with
  | nil => simp [blocksShape]
  | cons b bs ih => simp [blocksShape, ih]

/-- C2: given a resolvable reference and fragment, `convertBlockToStatic`
dispatches a replacement of the reference block by one deep clone per child
of the fragment root when that root has the fixed group type
`core/template`, and by a one-element list holding a deep clone of the root
otherwise; the output is structurally identical to the fragment content,
and its client ids are newly allocated, duplicate-free, and disjoint from
the fragment's own client ids. -/
theorem toStatic_clones_fresh_unique
    (getBlock : Nat → Option Block)
    (getReusableBlock : AttrValue → Option ReusableBlock)
    (cid fresh : Nat) (oldBlock : Block) (r : AttrValue)
    (ru : ReusableBlock) (frag : Block)
    (h1 : getBlock cid = some oldBlock)
    (h2 : getAttr oldBlock "ref" = some r)
    (h3 : getReusableBlock r = some ru)
    (h4 : getBlock ru.clientId = some frag)
    (h5 : ∀ i ∈ frag.allClientIds, i < fresh) :
    ∃ newBlocks fresh2,
      convertBlockToStatic getBlock getReusableBlock cid fresh =
        some ([Action.replaceBlocks [oldBlock.clientId] newBlocks], fresh2) ∧
      (frag.name = "core/template" →
        blocksShape newBlocks = blocksShape frag.innerBlocks ∧
        newBlocks.length = frag.innerBlocks.length) ∧
      (frag.name ≠ "core/template" →
        blocksShape newBlocks = [frag.shape]) ∧
      (blocksClientIds newBlocks).Nodup ∧
      (∀ i ∈ blocksClientIds newBlocks, fresh ≤ i) ∧
      (∀ i ∈ blocksClientIds newBlocks, i ∉ frag.allClientIds) := by
  by_cases hname : frag.name = "core/template"
  · refine ⟨(cloneBlocks frag.innerBlocks fresh).1,
      (cloneBlocks frag.innerBlocks fresh).2, ?_, ?_, ?_, ?_, ?_, ?_⟩
    · simp [convertBlockToStatic, h1, h2, h3, h4, hname]
    · intro _
      constructor
      · exact (cloneBlocks_spec frag.innerBlocks fresh).2.2
      · have := congrArg List.length
          ((cloneBlocks_spec frag.innerBlocks fresh).2.2)
        simpa [blocksShape_length] using this
    · intro hcontra; exact absurd hname hcontra
    · exact cloneBlocks_nodup _ _
    · exact cloneBlocks_fresh _ _
    · intro i hi hmem
      exact absurd (h5 i hmem)
        (by simpa using cloneBlocks_fresh _ _ i hi)
  · refine ⟨[(cloneBlock frag fresh).1], (cloneBlock frag fresh).2,
      ?_, ?_, ?_, ?_, ?_, ?_⟩
    · simp [convertBlockToStatic, h1, h2, h3, h4, hname]
    · intro hcontra; exact absurd hcontra hname
    · intro _
      simp only [blocksShape]
      rw [(cloneBlock_spec frag fresh).2.2]
    · simpa [blocksClientIds] using cloneBlock_nodup frag fresh
    · intro i hi
      exact cloneBlock_fresh frag fresh i (by simpa [blocksClientIds] using hi)
    · intro i hi hmem
      have hge := cloneBlock_fresh frag fresh i
        (by simpa [blocksClientIds] using hi)
      exact absurd (h5 i hmem) (by omega)

/-- A block's own client id is among all its client ids. -/
theorem clientId_mem_allClientIds (b : Block) :
    b.clientId ∈ b.allClientIds := by
  cases b
  simp [Block.allClientIds, Block.clientId]

/-- The synchronized list always has the template's length. -/
theorem sync_length (template : List TemplateEntry) :
    ∀ (blocks : List Block) (fresh : Nat),
      ((synchronizeBlocksWithTemplate blocks template fresh).1).length =
        template.length := by
  induction template with
  | nil =>
    intro blocks fresh
    cases blocks <;> simp [synchronizeBlocksWithTemplate]
  | cons t ts ih =>
    intro blocks fresh
    cases blocks with
    | nil => simp [synchronizeBlocksWithTemplate, ih]
    | cons b bs =>
      by_cases h : b.name = t.name <;>
        simp [synchronizeBlocksWithTemplate, h, ih]

/-- Synchronizing against the empty template yields the empty list. -/
theorem sync_empty (blocks : List Block) (fresh : Nat) :
    synchronizeBlocksWithTemplate blocks [] fresh = ([], fresh) := by
  cases blocks <;> simp [synchronizeBlocksWithTemplate]

/-- A block whose type name matches the template entry at its position is
kept unchanged. -/
theorem sync_keeps_matching (template : List TemplateEntry) :
    ∀ (blocks : List Block) (fresh i : Nat) (b : Block) (t : TemplateEntry),
      blocks[i]? = some b → template[i]? = some t → b.name = t.name →
      ((synchronizeBlocksWithTemplate blocks template fresh).1)[i]? =
        some b := by
  induction template with
  | nil => intro blocks fresh i b t _ ht; simp at ht
  | cons t0 ts ih =>
    intro blocks fresh i b t hb ht hmatch
    cases blocks with
    | nil => cases i <;> simp at hb
    | cons b0 bs =>
      cases i with
      | zero =>
        simp only [List.getElem?_cons_zero, Option.some.injEq] at hb ht
        subst hb; subst ht
        simp [synchronizeBlocksWithTemplate, hmatch]
      | succ j =>
        simp only [List.getElem?_cons_succ] at hb ht
        by_cases h : b0.name = t0.name <;>
          simp [synchronizeBlocksWithTemplate, h, ih bs _ j b t hb ht hmatch]

/-- A position whose block is missing or whose type name mismatches the
template entry gets a brand-new block synthesized from the entry. -/
theorem sync_synthesizes_mismatch (template : List TemplateEntry) :
    ∀ (blocks : List Block) (fresh i : Nat) (t : TemplateEntry),
      template[i]? = some t →
      (∀ b, blocks[i]? = some b → b.name ≠ t.name) →
      ∃ f, ((synchronizeBlocksWithTemplate blocks template fresh).1)[i]? =
        some (synthesizeFromTemplate t f).1 := by
  induction template with
  | nil => intro blocks fresh i t ht; simp at ht
  | cons t0 ts ih =>
    intro blocks fresh i t ht hmis
    cases blocks with
    | nil =>
      cases i with
      | zero =>
        simp only [List.getElem?_cons_zero, Option.some.injEq] at ht
        subst ht
        exact ⟨fresh, by simp [synchronizeBlocksWithTemplate]⟩
      | succ j =>
        simp only [List.getElem?_cons_succ] at ht
        obtain ⟨f, hf⟩ := ih [] (synthesizeFromTemplate t0 fresh).2 j t ht
          (by intro b hb; simp at hb)
        exact ⟨f, by simp [synchronizeBlocksWithTemplate, hf]⟩
    | cons b0 bs =>
      cases i with
      | zero =>
        simp only [List.getElem?_cons_zero, Option.some.injEq] at ht
        subst ht
        have hne : b0.name ≠ t0.name := hmis b0 (by simp)
        exact ⟨fresh, by simp [synchronizeBlocksWithTemplate, hne]⟩
      | succ j =>
        simp only [List.getElem?_cons_succ] at ht
        have hmis2 : ∀ b, bs[j]? = some b → b.name ≠ t.name := by
          intro b hb
          exact hmis b (by simpa using hb)
        by_cases h : b0.name = t0.name
        · obtain ⟨f, hf⟩ := ih bs fresh j t ht hmis2
          exact ⟨f, by simp [synchronizeBlocksWithTemplate, h, hf]⟩
        · obtain ⟨f, hf⟩ :=
            ih bs (synthesizeFromTemplate t0 fresh).2 j t ht hmis2
          exact ⟨f, by simp [synchronizeBlocksWithTemplate, h, hf]⟩

/-- A synthesized block carries the template entry's type name and default
attributes. -/
theorem synth_fields (t : TemplateEntry) (f : Nat) :
    (synthesizeFromTemplate t f).1.name = t.name ∧
    (synthesizeFromTemplate t f).1.attributes = t.attributes := by
  cases t
  simp [synthesizeFromTemplate, Block.name, Block.attributes,
    TemplateEntry.name, TemplateEntry.attributes]

/-- With enough fuel, `Nat.toDigitsCore` base 10 produces the decimal
digits of a positive number, most significant first, prepended to the
accumulator. -/
theorem toDigitsCore_eq_digits (fuel : Nat) :
    ∀ (n : Nat) (ds : List Char), 0 < n → n ≤ fuel →
      Nat.toDigitsCore 10 fuel n ds =
        ((Nat.digits 10 n).map Nat.digitChar).reverse ++ ds := by
  induction fuel with
  | zero => intro n ds h1 h2; omega
  | succ f ih =>
    intro n ds h1 h2
    have hstep : Nat.toDigitsCore 10 (f + 1) n ds =
        (if n / 10 = 0 then Nat.digitChar (n % 10) :: ds
         else Nat.toDigitsCore 10 f (n / 10)
           (Nat.digitChar (n % 10) :: ds)) := by
      simp [Nat.toDigitsCore]
    rw [hstep]
    by_cases h : n / 10 = 0
    · rw [if_pos h, Nat.digits_def' (by norm_num : (1 : Nat) < 10) h1, h]
      simp
    · rw [if_neg h]
      have hpos : 0 < n / 10 := Nat.pos_of_ne_zero h
      have hlt : n / 10 < n := Nat.div_lt_self h1 (by norm_num)
      rw [ih (n / 10) _ hpos (by omega),
        Nat.digits_def' (by norm_num : (1 : Nat) < 10) h1]
      simp

/-- `Nat.repr` of a positive number spells its decimal digits, most
significant first. -/
theorem repr_eq_digits (n : Nat) (h : 0 < n) :
    Nat.repr n =
      (((Nat.digits 10 n).map Nat.digitChar).reverse).asString := by
  unfold Nat.repr Nat.toDigits
  rw [toDigitsCore_eq_digits (n + 1) n [] h (by omega)]
  simp

/-- `Nat.digitChar` is injective below 10. -/
theorem digitChar_inj (a b : Nat) (ha : a < 10) (hb : b < 10)
    (h : Nat.digitChar a = Nat.digitChar b) : a = b := by
  interval_cases a <;> interval_cases b <;> revert h <;> decide

/-- Mapping `Nat.digitChar` over lists of digits below 10 is injective. -/
theorem map_digitChar_inj (l1 : List Nat) :
    ∀ l2 : List Nat, (∀ x ∈ l1, x < 10) → (∀ x ∈ l2, x < 10) →
      l1.map Nat.digitChar = l2.map Nat.digitChar → l1 = l2 := by
  induction l1 with
  | nil => intro l2 _ _ h; cases l2 <;> simp_all
  | cons a l1 ih =>
    intro l2 h1 h2 h
    cases l2 with
    | nil => simp at h
    | cons b l2 =>
      simp only [List.map_cons, List.cons.injEq] at h
      have hab : a = b :=
        digitChar_inj a b (h1 a (by simp)) (h2 b (by simp)) h.1
      have htail := ih l2 (fun x hx => h1 x (by simp [hx]))
        (fun x hx => h2 x (by simp [hx])) h.2
      rw [hab, htail]

/-- A positive number's decimal digit string is not the digit string of
zero. -/
theorem digits_ne_zero_case (b : Nat) (hb : 0 < b)
    (hdata : ['0'] = ((Nat.digits 10 b).map Nat.digitChar).reverse) :
    False := by
  have hrev : (Nat.digits 10 b).map Nat.digitChar = ['0'] := by
    have := congrArg List.reverse hdata
    simpa using this.symm
  have hdig : Nat.digits 10 b = [0] := by
    refine map_digitChar_inj (Nat.digits 10 b) [0]
      (fun x hx =>
        Nat.digits_lt_base (by norm_num : (1 : Nat) < 10) hx)
      (by intro x hx; simp at hx; omega) ?_
    simpa [Nat.digitChar] using hrev
  have hofd := Nat.ofDigits_digits 10 b
  rw [hdig] at hofd
  simp [Nat.ofDigits] at hofd
  omega

/-- `Nat.repr` is injective. -/
theorem natRepr_inj (a b : Nat) (h : Nat.repr a = Nat.repr b) : a = b := by
  rcases Nat.eq_zero_or_pos a with ha | ha <;>
    rcases Nat.eq_zero_or_pos b with hb | hb
  · omega
  · exfalso
    rw [repr_eq_digits b hb] at h
    subst ha
    have h2 := h
    rw [show Nat.repr 0 = "0" from rfl] at h2
    have h3 := congrArg String.data h2
    exact digits_ne_zero_case b hb h3
  · exfalso
    rw [repr_eq_digits a ha] at h
    subst hb
    have h2 := h.symm
    rw [show Nat.repr 0 = "0" from rfl] at h2
    have h3 := congrArg String.data h2
    exact digits_ne_zero_case a ha h3
  · rw [repr_eq_digits a ha, repr_eq_digits b hb] at h
    have hdata :
        ((Nat.digits 10 a).map Nat.digitChar).reverse =
          ((Nat.digits 10 b).map Nat.digitChar).reverse := by
      simpa [List.asString, String.ext_iff] using h
    have hmap : (Nat.digits 10 a).map Nat.digitChar =
        (Nat.digits 10 b).map Nat.digitChar := by
      have := congrArg List.reverse hdata
      simpa using this
    have hdig : Nat.digits 10 a = Nat.digits 10 b :=
      map_digitChar_inj _ _
        (fun x hx =>
          Nat.digits_lt_base (by norm_num : (1 : Nat) < 10) hx)
        (fun x hx =>
          Nat.digits_lt_base (by norm_num : (1 : Nat) < 10) hx)
        hmap
    have := congrArg (Nat.ofDigits 10) hdig
    rwa [Nat.ofDigits_digits, Nat.ofDigits_digits] at this

/-- The temporary fragment-id generator is injective: distinct counter
values yield distinct ids. -/
theorem uniqueIdReusable_inj (s1 s2 : Nat)
    (h : uniqueIdReusable s1 = uniqueIdReusable s2) : s1 = s2 := by
  simp only [uniqueIdReusable, AttrValue.str.injEq] at h
  have hdata := congrArg String.data h
  rw [String.data_append, String.data_append] at hdata
  have hrepr : (Nat.repr s1).data = (Nat.repr s2).data :=
    List.append_cancel_left hdata
  exact natRepr_inj s1 s2 (by
    cases hr1 : Nat.repr s1
    cases hr2 : Nat.repr s2
    simp_all [String.ext_iff])

/-- A child-selection transition while the parent has no selection: the
guard is set and survives the settled reaction (the parent observer never
fires, having seen no change). -/
theorem step_child_select_parent_none (g : Bool) (i : Nat) :
    step ⟨none, none, g⟩ (.setChild (some i)) = ⟨none, some i, true⟩ := by
  simp [step, onInnerBlockSelected, onSelectedBlockChange]

/-- A child-selection transition while the parent has a selection: the
guard is set, the parent selection is cleared, and the parent observer's
immediate reaction consumes the guard. -/
theorem step_child_select_parent_some (p : Nat) (g : Bool) (i : Nat) :
    step ⟨some p, none, g⟩ (.setChild (some i)) = ⟨none, some i, false⟩ := by
  simp [step, onInnerBlockSelected, onSelectedBlockChange]

/-- C7: the guard is one-shot.  The child-side observer fires exactly on a
nothing→something transition of the child selection; it sets the guard and
instructs the parent context to clear its selection (when the parent had a
selection, the resulting parent reaction consumes the guard immediately,
leaving the new child selection in place; when it had none, the guard
survives).  On the parent observer's next reaction, the guard being present
means the child selection is left untouched and the guard cleared; absent,
the child selection is actively cleared. -/
theorem guard_one_shot :
    (∀ (s : ArbiterState) (i : Nat), s.childSel = none →
      (step s (.setChild (some i))).parentSel = none ∧
      (step s (.setChild (some i))).childSel = some i ∧
      (s.parentSel = none → step s (.setChild (some i)) =
        ⟨none, some i, true⟩) ∧
      (∀ p, s.parentSel = some p → step s (.setChild (some i)) =
        ⟨none, some i, false⟩)) ∧
    (∀ (s : ArbiterState) (sel : Option Nat),
      ¬(s.childSel = none ∧ sel.isSome = true) →
      (step s (.setChild sel)).innerGuard = s.innerGuard) ∧
    (∀ (s : ArbiterState) (sel : Option Nat), sel ≠ s.parentSel →
      s.innerGuard = true →
      step s (.setParent sel) =
        { s with parentSel := sel, innerGuard := false }) ∧
    (∀ (s : ArbiterState) (sel : Option Nat), sel ≠ s.parentSel →
      s.innerGuard = false →
      step s (.setParent sel) =
        { s with parentSel := sel, childSel := none }) := by
  refine ⟨?_, ?_, ?_, ?_⟩
  · rintro ⟨p, c, g⟩ i hnone
    simp only at hnone
    subst hnone
    cases p with
    | none =>
      refine ⟨?_, ?_, ?_, ?_⟩
      · rw [step_child_select_parent_none]
      · rw [step_child_select_parent_none]
      · intro _; rw [step_child_select_parent_none]
      · intro p hp; simp at hp
    | some p =>
      refine ⟨?_, ?_, ?_, ?_⟩
      · rw [step_child_select_parent_some]
      · rw [step_child_select_parent_some]
      · intro hcontra; simp at hcontra
      · intro q hq
        simp only [Option.some.injEq] at hq
        subst hq
        rw [step_child_select_parent_some]
  · rintro ⟨p, c, g⟩ sel hnot
    by_cases hsame : sel = c
    · simp [step, hsame]
    · cases c with
      | none =>
        cases sel with
        | none => simp at hsame
        | some i => exact absurd ⟨rfl, rfl⟩ hnot
      | some j =>
        simp [step, hsame]
  · rintro ⟨p, c, g⟩ sel hne hg
    simp only at hg
    subst hg
    simp [step, hne, onSelectedBlockChange]
  · rintro ⟨p, c, g⟩ sel hne hg
    simp only at hg
    subst hg
    simp [step, hne, onSelectedBlockChange]

/-- C7 witness: the guard protocol at concrete states — a child selection
with the parent selected consumes the guard within the settled reaction; a
later parent selection with the guard present leaves the child untouched;
with the guard absent the child is cleared. -/
theorem guard_one_shot_witness :
    ((⟨some 7, none, false⟩ : ArbiterState).childSel = none ∧
     step ⟨some 7, none, false⟩ (.setChild (some 1)) =
       ⟨none, some 1, false⟩) ∧
    ((some 3 : Option Nat) ≠
        (⟨none, some 1, true⟩ : ArbiterState).parentSel ∧
     step ⟨none, some 1, true⟩ (.setParent (some 3)) =
       ⟨some 3, some 1, false⟩) ∧
    step ⟨none, some 1, false⟩ (.setParent (some 3)) =
      ⟨some 3, none, false⟩ :=
  ⟨⟨rfl, (guard_one_shot.1 ⟨some 7, none, false⟩ 1 rfl).2.2.2 7 rfl⟩,
   ⟨by simp,
    guard_one_shot.2.2.1 ⟨none, some 1, true⟩ (some 3) (by simp) rfl⟩,
   guard_one_shot.2.2.2 ⟨none, some 1, false⟩ (some 3) (by simp) rfl⟩

/-- C1: selection exclusivity FAILS on the code.  From both contexts
unselected, the alternating event sequence "select block 1 in the child
context, then select block 2 in the parent context" settles with BOTH
selections non-empty: the child observer set the guard while the parent had
nothing to clear, so the guard leaked into the next parent reaction, which
consumed it instead of clearing the child. -/
theorem selection_exclusivity_fails :
    runEvents ⟨none, none, false⟩
      [SelEvent.setChild (some 1), SelEvent.setParent (some 2)] =
      ⟨some 2, some 1, false⟩ ∧
    ¬ exclusive ⟨some 2, some 1, false⟩ :=
  ⟨by decide, by simp [exclusive]⟩

/-- C8: from an editing session, `cancelEditing` locks the session and
increments `cancelIncrementKey` by exactly one, which forces the mounted
editor to be rebuilt with the fragment's last-committed content;
`startEditing` and `stopEditing` leave the key unchanged, and cancelling
strictly increases it. -/
theorem cancelEditing_resets (s : SessionState) (m : MountedEditor)
    (content : List Block)
    (_hEditing : s.isEditing = true)
    (hMounted : m.mountedKey = s.cancelIncrementKey) :
    (cancelEditing s).isEditing = false ∧
    (cancelEditing s).cancelIncrementKey = s.cancelIncrementKey + 1 ∧
    (settleEditor content (cancelEditing s).cancelIncrementKey m).privateTree
      = content ∧
    (∀ t : SessionState,
      (startEditing t).cancelIncrementKey = t.cancelIncrementKey ∧
      (startEditing t).isEditing = true) ∧
    (∀ t : SessionState,
      (stopEditing t).cancelIncrementKey = t.cancelIncrementKey ∧
      (stopEditing t).isEditing = false) ∧
    (∀ t : SessionState,
      t.cancelIncrementKey < (cancelEditing t).cancelIncrementKey) := by
  refine ⟨rfl, rfl, ?_, fun t => ⟨rfl, rfl⟩, fun t => ⟨rfl, rfl⟩,
    fun t => by simp [cancelEditing, stopEditing, toggleIsEditing]⟩
  have hkey : (cancelEditing s).cancelIncrementKey ≠ m.mountedKey := by
    simp only [cancelEditing, stopEditing, toggleIsEditing, hMounted]
    omega
  simp [settleEditor, hkey]

/-- C8 witness: cancelling a concrete editing session. -/
theorem cancelEditing_resets_witness :
    ((⟨4, true⟩ : SessionState).isEditing = true ∧
     (⟨4, [Block.mk 9 "core/paragraph" [] []]⟩ :
        MountedEditor).mountedKey =
       (⟨4, true⟩ : SessionState).cancelIncrementKey) ∧
    (cancelEditing ⟨4, true⟩).isEditing = false ∧
    (cancelEditing ⟨4, true⟩).cancelIncrementKey = 4 + 1 ∧
    (settleEditor [] (cancelEditing ⟨4, true⟩).cancelIncrementKey
      ⟨4, [Block.mk 9 "core/paragraph" [] []]⟩).privateTree = [] :=
  ⟨⟨rfl, rfl⟩,
   (cancelEditing_resets ⟨4, true⟩
     ⟨4, [Block.mk 9 "core/paragraph" [] []]⟩ [] rfl rfl).1,
   (cancelEditing_resets ⟨4, true⟩
     ⟨4, [Block.mk 9 "core/paragraph" [] []]⟩ [] rfl rfl).2.1,
   (cancelEditing_resets ⟨4, true⟩
     ⟨4, [Block.mk 9 "core/paragraph" [] []]⟩ [] rfl rfl).2.2.1⟩

/-- C9: an unresolvable reference or fragment makes both conversion
handlers fail with the not-found outcome (`none`) — a single reported
failure of the pure run, with no retry — and a missing record renders as a
placeholder (the unavailable message, or a spinner while a fetch is in
flight), not a process abort. -/
theorem notFound_reported :
    (∀ (getBlock : Nat → Option Block)
       (getReusableBlock : AttrValue → Option ReusableBlock)
       (cid fresh : Nat), getBlock cid = none →
      convertBlockToStatic getBlock getReusableBlock cid fresh = none) ∧
    (∀ (getBlock : Nat → Option Block)
       (getReusableBlock : AttrValue → Option ReusableBlock)
       (cid fresh : Nat) (oldBlock : Block) (r : AttrValue),
      getBlock cid = some oldBlock → getAttr oldBlock "ref" = some r →
      getReusableBlock r = none →
      convertBlockToStatic getBlock getReusableBlock cid fresh = none) ∧
    (∀ (getBlock : Nat → Option Block) (cid fresh seq : Nat),
      getBlock cid = none →
      convertBlockToReusable getBlock [cid] fresh seq = none) ∧
    (∀ (isSelected canUpdateBlock : Bool) (st : SessionState),
      render isSelected none false canUpdateBlock st =
        RenderOutput.placeholderNotFound) ∧
    (∀ (isSelected canUpdateBlock : Bool) (st : SessionState),
      render isSelected none true canUpdateBlock st =
        RenderOutput.placeholderSpinner) := by
  refine ⟨?_, ?_, ?_, fun _ _ _ => rfl, fun _ _ _ => rfl⟩
  · intro getBlock getReusableBlock cid fresh h
    simp [convertBlockToStatic, h]
  · intro getBlock getReusableBlock cid fresh oldBlock r h1 h2 h3
    simp [convertBlockToStatic, h1, h2, h3]
  · intro getBlock cid fresh seq h
    simp [convertBlockToReusable, h]

/-- C9 witness: the not-found outcomes at a concrete empty store. -/
theorem notFound_reported_witness :
    ((fun _ : Nat => (none : Option Block)) 3 = none) ∧
    convertBlockToStatic (fun _ => none) (fun _ => none) 3 0 = none ∧
    convertBlockToReusable (fun _ => none) [3] 0 0 = none ∧
    render true none false true ⟨0, false⟩ =
      RenderOutput.placeholderNotFound ∧
    render true none true true ⟨0, false⟩ =
      RenderOutput.placeholderSpinner :=
  ⟨rfl,
   notFound_reported.1 (fun _ => none) (fun _ => none) 3 0 rfl,
   notFound_reported.2.2.1 (fun _ => none) 3 0 0 rfl,
   notFound_reported.2.2.2.1 true true ⟨0, false⟩,
   notFound_reported.2.2.2.2 true true ⟨0, false⟩⟩

/-- C10: a reference is temporary exactly when its `ref` attribute is not a
finite number; a temporary reference never fetches the entity record;
`canUpdateBlock` holds exactly when the reference is non-temporary, the
record exists, and the user has update permission; and the rendered edit
panel is disabled exactly when `canUpdateBlock` is false. -/
theorem temporary_reference_spec :
    (∀ ref : AttrValue,
      isTemporaryReusableBlock ref = !ref.isFiniteNumber) ∧
    (∀ (ref : AttrValue) (ger : Int → Option ReusableEntity)
       (res canU : Bool),
      isTemporaryReusableBlock ref = true →
      (withSelectProps ref ger res canU).reusableBlock = none) ∧
    (∀ (ref : AttrValue) (ger : Int → Option ReusableEntity)
       (res canU : Bool),
      (withSelectProps ref ger res canU).canUpdateBlock = true ↔
        (isTemporaryReusableBlock ref = false ∧
         ((withSelectProps ref ger res canU).reusableBlock).isSome = true ∧
         canU = true)) ∧
    (∀ (rb : ReusableEntity) (isSel f cu : Bool) (st : SessionState),
      (render isSel (some rb) f cu st).editDisabled = some (!cu)) := by
  refine ⟨fun _ => rfl, ?_, ?_, fun _ _ _ _ _ => rfl⟩
  · intro ref ger res canU h
    simp [withSelectProps, h]
  · intro ref ger res canU
    cases ref with
    | num n =>
      simp [withSelectProps, isTemporaryReusableBlock,
        AttrValue.isFiniteNumber]
    | str s =>
      simp [withSelectProps, isTemporaryReusableBlock,
        AttrValue.isFiniteNumber]

/-- C10 witness: a temporary (string) reference and a persisted (numeric)
reference at a concrete record store. -/
theorem temporary_reference_spec_witness :
    (isTemporaryReusableBlock (AttrValue.str "reusable1") = true) ∧
    (withSelectProps (AttrValue.str "reusable1")
      (fun _ => some ⟨"t", []⟩) false true).reusableBlock = none ∧
    ((withSelectProps (AttrValue.num 3) (fun _ => some ⟨"t", []⟩)
        false true).canUpdateBlock = true ↔
      (isTemporaryReusableBlock (AttrValue.num 3) = false ∧
       ((withSelectProps (AttrValue.num 3) (fun _ => some ⟨"t", []⟩)
          false true).reusableBlock).isSome = true ∧
       (true : Bool) = true)) :=
  ⟨rfl,
   temporary_reference_spec.2.1 (AttrValue.str "reusable1")
     (fun _ => some ⟨"t", []⟩) false true rfl,
   temporary_reference_spec.2.2.1 (AttrValue.num 3)
     (fun _ => some ⟨"t", []⟩) false true⟩

/-- Fixture: a reference block whose `ref` attribute points at fragment id
5. -/
def wOldBlock : Block :=
  Block.mk 10 "core/block" [("ref", AttrValue.num 5)] []

/-- Fixture: a fragment content block with one nested child. -/
def wFrag : Block :=
  Block.mk 0 "core/columns" [] [Block.mk 3 "core/paragraph" [] []]

/-- Fixture: block lookup over the two fixture blocks. -/
def wGetBlock : Nat → Option Block := fun c =>
  if c = 10 then some wOldBlock else if c = 0 then some wFrag else none

/-- Fixture: the reusable record for fragment id 5, whose content lives at
client id 0. -/
def wReusable : ReusableBlock := ⟨AttrValue.num 5, 0, "My block"⟩

/-- Fixture: reusable-record lookup. -/
def wGetReusable : AttrValue → Option ReusableBlock := fun r =>
  if r = AttrValue.num 5 then some wReusable else none

/-- C2 witness: the conversion at the concrete fixture store. -/
theorem toStatic_clones_fresh_unique_witness :
    (wGetBlock 10 = some wOldBlock ∧
     getAttr wOldBlock "ref" = some (AttrValue.num 5) ∧
     wGetReusable (AttrValue.num 5) = some wReusable ∧
     wGetBlock wReusable.clientId = some wFrag ∧
     (∀ i ∈ wFrag.allClientIds, i < 5)) ∧
    (∃ newBlocks fresh2,
      convertBlockToStatic wGetBlock wGetReusable 10 5 =
        some ([Action.replaceBlocks [wOldBlock.clientId] newBlocks],
          fresh2) ∧
      (wFrag.name = "core/template" →
        blocksShape newBlocks = blocksShape wFrag.innerBlocks ∧
        newBlocks.length = wFrag.innerBlocks.length) ∧
      (wFrag.name ≠ "core/template" →
        blocksShape newBlocks = [wFrag.shape]) ∧
      (blocksClientIds newBlocks).Nodup ∧
      (∀ i ∈ blocksClientIds newBlocks, 5 ≤ i) ∧
      (∀ i ∈ blocksClientIds newBlocks, i ∉ wFrag.allClientIds)) :=
  ⟨⟨rfl, rfl, rfl, rfl, by decide⟩,
   toStatic_clones_fresh_unique wGetBlock wGetReusable 10 5 wOldBlock
     (AttrValue.num 5) wReusable wFrag rfl rfl rfl rfl (by decide)⟩

/-- C3 counterexample: at the fixture store the conversion handlers
THEMSELVES dispatch the `replaceBlocks` splice of their result into the
tree — the replace step is not left to the caller. -/
theorem conversion_replace_counterexample :
    Option.map (fun p => p.1.any Action.isReplaceBlocks)
      (convertBlockToStatic wGetBlock wGetReusable 10 5) = some true ∧
    Option.map (fun conv => conv.dispatched.any Action.isReplaceBlocks)
      (convertBlockToReusable wGetBlock [10] 20 0) = some true :=
  ⟨rfl, rfl⟩

/-- C3 amended: the conversion handlers mutate no existing block object —
`convertBlockToStatic` dispatches exactly one action, replacing the
reference block with the fresh clones and leaving the fragment untouched,
and single-node `convertBlockToReusable` passes the fetched block through
by identity, dispatching exactly the receive-reusable / save / replace /
re-receive sequence — but each handler does itself dispatch the
`replaceBlocks` splice of its result. -/
theorem conversion_dispatch_contract :
    (∀ (getBlock : Nat → Option Block)
       (getReusableBlock : AttrValue → Option ReusableBlock)
       (cid fresh : Nat) (oldBlock : Block) (r : AttrValue)
       (ru : ReusableBlock) (frag : Block),
      getBlock cid = some oldBlock →
      getAttr oldBlock "ref" = some r →
      getReusableBlock r = some ru →
      getBlock ru.clientId = some frag →
      ∃ newBlocks fresh2,
        convertBlockToStatic getBlock getReusableBlock cid fresh =
          some ([Action.replaceBlocks [oldBlock.clientId] newBlocks],
            fresh2) ∧
        Action.isReplaceBlocks
          (Action.replaceBlocks [oldBlock.clientId] newBlocks) = true) ∧
    (∀ (getBlock : Nat → Option Block) (cid fresh seq : Nat)
       (node : Block),
      getBlock cid = some node →
      ∃ conv,
        convertBlockToReusable getBlock [cid] fresh seq = some conv ∧
        conv.parsedBlock = node ∧
        conv.dispatched =
          [Action.receiveReusableBlocks [(conv.reusableBlock, node)],
           Action.saveReusableBlock conv.reusableBlock.id,
           Action.replaceBlocks [cid] [conv.referenceBlock],
           Action.receiveBlocks [node]]) := by
  constructor
  · intro getBlock getReusableBlock cid fresh oldBlock r ru frag
      h1 h2 h3 h4
    by_cases hname : frag.name = "core/template"
    · exact ⟨(cloneBlocks frag.innerBlocks fresh).1,
        (cloneBlocks frag.innerBlocks fresh).2,
        by simp [convertBlockToStatic, h1, h2, h3, h4, hname], rfl⟩
    · exact ⟨[(cloneBlock frag fresh).1], (cloneBlock frag fresh).2,
        by simp [convertBlockToStatic, h1, h2, h3, h4, hname], rfl⟩
  · intro getBlock cid fresh seq node h
    refine ⟨finishConversion node [] [cid] fresh seq, ?_, rfl, ?_⟩
    · simp [convertBlockToReusable, h]
    · simp [finishConversion]

/-- C3 witness: the amended dispatch contract at the fixture store. -/
theorem conversion_dispatch_contract_witness :
    (wGetBlock 10 = some wOldBlock ∧
     getAttr wOldBlock "ref" = some (AttrValue.num 5) ∧
     wGetReusable (AttrValue.num 5) = some wReusable ∧
     wGetBlock wReusable.clientId = some wFrag) ∧
    (∃ newBlocks fresh2,
      convertBlockToStatic wGetBlock wGetReusable 10 5 =
        some ([Action.replaceBlocks [wOldBlock.clientId] newBlocks],
          fresh2) ∧
      Action.isReplaceBlocks
        (Action.replaceBlocks [wOldBlock.clientId] newBlocks) = true) ∧
    (∃ conv,
      convertBlockToReusable wGetBlock [10] 20 0 = some conv ∧
      conv.parsedBlock = wOldBlock ∧
      conv.dispatched =
        [Action.receiveReusableBlocks [(conv.reusableBlock, wOldBlock)],
         Action.saveReusableBlock conv.reusableBlock.id,
         Action.replaceBlocks [10] [conv.referenceBlock],
         Action.receiveBlocks [wOldBlock]]) :=
  ⟨⟨rfl, rfl, rfl, rfl⟩,
   conversion_dispatch_contract.1 wGetBlock wGetReusable 10 5 wOldBlock
     (AttrValue.num 5) wReusable wFrag rfl rfl rfl rfl,
   conversion_dispatch_contract.2 wGetBlock 10 20 0 wOldBlock rfl⟩

/-- C4 counterexample: a node whose type name is the fixed group name
`core/template` does not round-trip: converting it to reusable and back
yields the clones of its children (here, none), which is not structurally
equal to the original one-node tree. -/
theorem roundTrip_template_counterexample :
    roundTripStatic (Block.mk 0 "core/template" [] []) 1 0 =
      some ([Action.replaceBlocks [1] []], 2) ∧
    blocksShape [] ≠ blocksShape [Block.mk 0 "core/template" [] []] :=
  ⟨rfl, by simp [blocksShape]⟩

/-- C4 amended: for every node whose type name is NOT the group name
`core/template`, converting it to reusable and the resulting reference back
to static yields a replacement of the reference block by a single block
structurally equal to the original node, differing only in client ids. -/
theorem roundTrip_shape (node : Block) (fresh seq : Nat)
    (hname : node.name ≠ "core/template")
    (hfresh : ∀ i ∈ node.allClientIds, i < fresh) :
    ∃ newBlocks fresh2,
      roundTripStatic node fresh seq =
        some ([Action.replaceBlocks [fresh] newBlocks], fresh2) ∧
      blocksShape newBlocks = [node.shape] := by
  have hncid : node.clientId ≠ fresh := by
    have := hfresh node.clientId (clientId_mem_allClientIds node)
    omega
  refine ⟨[(cloneBlock node (fresh + 1)).1],
    (cloneBlock node (fresh + 1)).2, ?_, ?_⟩
  · obtain ⟨c, n, a, inner⟩ := node
    simp only [Block.name] at hname
    simp only [Block.clientId] at hncid
    simp [roundTripStatic, convertBlockToReusable, finishConversion,
      createBlock, convertBlockToStatic, getAttr, Block.clientId,
      Block.name, Block.attributes, Block.innerBlocks, hname, hncid]
  · simp only [blocksShape]
    rw [(cloneBlock_spec node (fresh + 1)).2.2]

/-- C4 witness: round-tripping a concrete paragraph node. -/
theorem roundTrip_shape_witness :
    ((Block.mk 0 "core/paragraph" [] []).name ≠ "core/template" ∧
     (∀ i ∈ (Block.mk 0 "core/paragraph" [] []).allClientIds, i < 1)) ∧
    (∃ newBlocks fresh2,
      roundTripStatic (Block.mk 0 "core/paragraph" [] []) 1 0 =
        some ([Action.replaceBlocks [1] newBlocks], fresh2) ∧
      blocksShape newBlocks =
        [(Block.mk 0 "core/paragraph" [] []).shape]) :=
  ⟨⟨by simp [Block.name], by decide⟩,
   roundTrip_shape (Block.mk 0 "core/paragraph" [] []) 1 0
     (by simp [Block.name]) (by decide)⟩

/-- C5: `synchronizeBlocksWithTemplate` returns a list of the template's
length (so blocks beyond it are dropped, and the empty template yields the
empty result for any input); position `i` keeps `tree[i]` unchanged exactly
when it exists and its type name equals the template entry's, and otherwise
holds a brand-new block synthesized from the entry, carrying the entry's
type name and default attributes. -/
theorem synchronize_spec :
    (∀ (blocks : List Block) (template : List TemplateEntry) (fresh : Nat),
      ((synchronizeBlocksWithTemplate blocks template fresh).1).length =
        template.length) ∧
    (∀ (blocks : List Block) (fresh : Nat),
      synchronizeBlocksWithTemplate blocks [] fresh = ([], fresh)) ∧
    (∀ (blocks : List Block) (template : List TemplateEntry)
       (fresh i : Nat) (b : Block) (t : TemplateEntry),
      blocks[i]? = some b → template[i]? = some t → b.name = t.name →
      ((synchronizeBlocksWithTemplate blocks template fresh).1)[i]? =
        some b) ∧
    (∀ (blocks : List Block) (template : List TemplateEntry)
       (fresh i : Nat) (t : TemplateEntry),
      template[i]? = some t →
      (∀ b, blocks[i]? = some b → b.name ≠ t.name) →
      ∃ f, ((synchronizeBlocksWithTemplate blocks template fresh).1)[i]? =
        some (synthesizeFromTemplate t f).1) ∧
    (∀ (t : TemplateEntry) (f : Nat),
      (synthesizeFromTemplate t f).1.name = t.name ∧
      (synthesizeFromTemplate t f).1.attributes = t.attributes) :=
  ⟨fun blocks template fresh => sync_length template blocks fresh,
   sync_empty,
   fun blocks template fresh i b t hb ht hm =>
     sync_keeps_matching template blocks fresh i b t hb ht hm,
   fun blocks template fresh i t ht hm =>
     sync_synthesizes_mismatch template blocks fresh i t ht hm,
   synth_fields⟩

/-- Fixture: a paragraph block for the template-sync witness. -/
def wSyncBlock : Block := Block.mk 7 "core/paragraph" [] []

/-- Fixture: a two-entry template whose first entry matches the paragraph
and whose second does not match anything. -/
def wTemplate : List TemplateEntry :=
  [TemplateEntry.mk "core/paragraph" [] [],
   TemplateEntry.mk "core/heading" [("level", AttrValue.num 2)] []]

/-- C5 witness: synchronizing one concrete block against the two-entry
template keeps the matching block, synthesizes the missing one, and has the
template's length. -/
theorem synchronize_spec_witness :
    ((synchronizeBlocksWithTemplate [wSyncBlock] wTemplate 0).1).length =
      wTemplate.length ∧
    synchronizeBlocksWithTemplate [wSyncBlock] [] 0 = ([], 0) ∧
    ([wSyncBlock][0]? = some wSyncBlock ∧
     wTemplate[0]? = some (TemplateEntry.mk "core/paragraph" [] []) ∧
     wSyncBlock.name = (TemplateEntry.mk "core/paragraph" [] []).name ∧
     ((synchronizeBlocksWithTemplate [wSyncBlock] wTemplate 0).1)[0]? =
       some wSyncBlock) ∧
    (∃ f, ((synchronizeBlocksWithTemplate [wSyncBlock] wTemplate 0).1)[1]? =
      some (synthesizeFromTemplate
        (TemplateEntry.mk "core/heading" [("level", AttrValue.num 2)] [])
        f).1) :=
  ⟨synchronize_spec.1 [wSyncBlock] wTemplate 0,
   synchronize_spec.2.1 [wSyncBlock] 0,
   ⟨rfl, rfl, rfl,
    synchronize_spec.2.2.1 [wSyncBlock] wTemplate 0 0 wSyncBlock
      (TemplateEntry.mk "core/paragraph" [] []) rfl rfl rfl⟩,
   synchronize_spec.2.2.2.1 [wSyncBlock] wTemplate 0 1
     (TemplateEntry.mk "core/heading" [("level", AttrValue.num 2)] [])
     rfl (by intro b hb; simp at hb)⟩

/-- With other than exactly one client id, `convertBlockToReusable` takes
the aggregate branch: it wraps the fetched blocks in a newly created
`core/template` block. -/
theorem convertBlockToReusable_multi (getBlock : Nat → Option Block)
    (clientIds : List Nat) (fresh seq : Nat) (children : List Block)
    (hlen : clientIds.length ≠ 1)
    (hres : clientIds.mapM getBlock = some children) :
    convertBlockToReusable getBlock clientIds fresh seq =
      some (finishConversion (Block.mk fresh "core/template" [] children)
        [Action.receiveBlocks [Block.mk fresh "core/template" [] children]]
        clientIds (fresh + 1) seq) := by
  cases clientIds with
  | nil =>
    simp only [List.mapM_nil, pure, Option.some.injEq] at hres
    subst hres
    simp [convertBlockToReusable, createBlock, List.mapM.loop]
  | cons a as =>
    cases as with
    | nil => simp at hlen
    | cons b bs =>
      have hres2 : List.mapM.loop getBlock (a :: b :: bs) [] =
          some children := hres
      simp [convertBlockToReusable, createBlock, hres2]

/-- C6: with multiple client ids, `convertBlockToReusable` synthesizes one
aggregate `core/template` block whose children are exactly the fetched node
objects (identities preserved, not cloned) and proceeds as the single-node
case: it allocates a fresh temporary fragment id — the local prefix plus
the counter, a non-numeric id distinct from every persisted (numeric) id
and from the id of every other counter value — and returns a new
`core/block` reference with a fresh client id, distinct from the
aggregate's internal client id, whose `ref` attribute equals the new
fragment id. -/
theorem toReusable_multi_spec (getBlock : Nat → Option Block)
    (clientIds : List Nat) (fresh seq : Nat) (children : List Block)
    (hlen : clientIds.length ≠ 1)
    (hres : clientIds.mapM getBlock = some children)
    (hfresh : ∀ i ∈ blocksClientIds children, i < fresh) :
    ∃ conv, convertBlockToReusable getBlock clientIds fresh seq =
        some conv ∧
      conv.parsedBlock = Block.mk fresh "core/template" [] children ∧
      conv.reusableBlock =
        ⟨uniqueIdReusable seq, fresh, "Untitled Reusable Block"⟩ ∧
      (∀ n : Int, conv.reusableBlock.id ≠ AttrValue.num n) ∧
      (∀ k, uniqueIdReusable k = conv.reusableBlock.id → k = seq) ∧
      conv.referenceBlock =
        Block.mk (fresh + 1) "core/block"
          [("ref", uniqueIdReusable seq)] [] ∧
      conv.referenceBlock.clientId ≠ conv.parsedBlock.clientId ∧
      conv.referenceBlock.clientId ∉ blocksClientIds children := by
  refine ⟨finishConversion (Block.mk fresh "core/template" [] children)
    [Action.receiveBlocks [Block.mk fresh "core/template" [] children]]
    clientIds (fresh + 1) seq,
    convertBlockToReusable_multi getBlock clientIds fresh seq children
      hlen hres, rfl, ?_, ?_, ?_, ?_, ?_, ?_⟩
  · simp [finishConversion, Block.clientId]
  · intro n
    simp [finishConversion, uniqueIdReusable]
  · intro k hk
    simp only [finishConversion] at hk
    exact uniqueIdReusable_inj k seq hk
  · simp [finishConversion, createBlock]
  · simp [finishConversion, createBlock, Block.clientId]
  · simp only [finishConversion, createBlock, Block.clientId]
    intro hmem
    have := hfresh _ hmem
    omega

/-- Fixture: first block of a multi-selection. -/
def wMultiA : Block := Block.mk 1 "core/paragraph" [] []

/-- Fixture: second block of a multi-selection. -/
def wMultiB : Block := Block.mk 2 "core/heading" [] []

/-- Fixture: block lookup for the multi-selection. -/
def wGetBlockMulti : Nat → Option Block := fun c =>
  if c = 1 then some wMultiA else if c = 2 then some wMultiB else none

/-- C6 witness: converting the concrete two-block selection. -/
theorem toReusable_multi_spec_witness :
    (([1, 2] : List Nat).length ≠ 1 ∧
     ([1, 2] : List Nat).mapM wGetBlockMulti = some [wMultiA, wMultiB] ∧
     (∀ i ∈ blocksClientIds [wMultiA, wMultiB], i < 5)) ∧
    (∃ conv, convertBlockToReusable wGetBlockMulti [1, 2] 5 0 =
        some conv ∧
      conv.parsedBlock =
        Block.mk 5 "core/template" [] [wMultiA, wMultiB] ∧
      conv.reusableBlock =
        ⟨uniqueIdReusable 0, 5, "Untitled Reusable Block"⟩ ∧
      (∀ n : Int, conv.reusableBlock.id ≠ AttrValue.num n) ∧
      (∀ k, uniqueIdReusable k = conv.reusableBlock.id → k = 0) ∧
      conv.referenceBlock =
        Block.mk (5 + 1) "core/block" [("ref", uniqueIdReusable 0)] [] ∧
      conv.referenceBlock.clientId ≠ conv.parsedBlock.clientId ∧
      conv.referenceBlock.clientId ∉ blocksClientIds [wMultiA, wMultiB]) :=
  ⟨⟨by simp, rfl, by decide⟩,
   toReusable_multi_spec wGetBlockMulti [1, 2] 5 0 [wMultiA, wMultiB]
     (by simp) rfl (by decide)⟩

end Gutenberg
